import Mathlib

/-!
# Verification of the trin portal-network node (excerpted sources)

A shallow embedding, in Lean 4, of the five Rust source files of the
repository:

* `trin-core/src/portalnet/discovery.rs` — the Discovery transport adapter
  (`Config`, `Discovery::new`, `Discovery::start`, `discover_nodes`, …);
* `trin-core/src/types/header.rs` — the Ethereum block `Header` and its RLP
  `Encodable`/`Decodable` implementations;
* `trin-state/src/lib.rs` — the state-subnetwork endpoint router
  (`StateRequestHandler::handle_client_queries`) and `main`;
* `ethportal-peertest/src/main.rs` and `cli.rs` — the peertest CLI driver.

Rust machine integers and the fixed-width hash types (`H256`, `H160`,
`Bloom`, `U256`, `u64`) are embedded as `Nat` with explicit width bounds
where they matter; byte strings are `List Nat`; fallible Rust code returns
`Except`/`Option`, and a call of `.unwrap()` on an error is modelled by the
distinguished `panic` outcome of `RResult`.  External library calls
(secp256k1 key parsing, the `discv5` service, the parity `rlp` stream) are
modelled at their interfaces, as documented on each definition.
-/

namespace Trin

/-! ## Byte-string helpers

Bytes are `Nat`s (a well-formed byte is `< 256`; the bound is carried in
theorem hypotheses where it matters).  `beBytesToNat` interprets a
big-endian byte string; `natToMinBe` produces the shortest (no leading
zero) big-endian representation, which is exactly how the parity `rlp`
crate encodes `U256`/`u64` values; `natToFixedBe` pads with leading zeros
to a fixed width, which is how `H256`/`H160`/`Bloom` are encoded. -/

/-- Value of a big-endian byte string. -/
def beBytesToNat (bs : List Nat) : Nat :=
  bs.foldl (fun a b => a * 256 + b) 0

/-- Shortest big-endian byte representation of a natural number
(empty for `0`, no leading zero byte otherwise). -/
def natToMinBe (n : Nat) : List Nat :=
  if h : n = 0 then []
  else natToMinBe (n / 256) ++ [n % 256]
decreasing_by exact Nat.div_lt_self (Nat.pos_of_ne_zero h) (by omega)

/-- Fixed-width (`w`-byte) big-endian representation, left-padded with
zero bytes. -/
def natToFixedBe (w n : Nat) : List Nat :=
  List.replicate (w - (natToMinBe n).length) 0 ++ natToMinBe n

theorem beBytesToNat_foldl (a : Nat) (bs : List Nat) :
    bs.foldl (fun a b => a * 256 + b) a =
      a * 256 ^ bs.length + beBytesToNat bs := by
  induction bs generalizing a with
  | nil => simp [beBytesToNat]
  | cons b rest ih =>
    simp only [List.foldl_cons, List.length_cons, beBytesToNat]
    rw [ih, ih]
    ring

theorem beBytesToNat_append (l₁ l₂ : List Nat) :
    beBytesToNat (l₁ ++ l₂) =
      beBytesToNat l₁ * 256 ^ l₂.length + beBytesToNat l₂ := by
  unfold beBytesToNat
  rw [List.foldl_append]
  exact beBytesToNat_foldl _ l₂

theorem beBytesToNat_natToMinBe (n : Nat) :
    beBytesToNat (natToMinBe n) = n := by
  induction n using Nat.strong_induction_on with
  | _ n ih =>
    by_cases h : n = 0
    · subst h; simp [natToMinBe, beBytesToNat]
    · rw [natToMinBe, dif_neg h, beBytesToNat_append,
        ih (n / 256) (Nat.div_lt_self (Nat.pos_of_ne_zero h) (by omega))]
      simp [beBytesToNat]
      omega

theorem natToMinBe_length_le (k : Nat) :
    ∀ n, n < 256 ^ k → (natToMinBe n).length ≤ k := by
  induction k with
  | zero =>
    intro n hn
    interval_cases n
    simp [natToMinBe]
  | succ k ih =>
    intro n hn
    by_cases h : n = 0
    · subst h; simp [natToMinBe]
    · rw [natToMinBe, dif_neg h]
      have hdiv : n / 256 < 256 ^ k := by
        rw [Nat.div_lt_iff_lt_mul (by omega : 0 < 256)]
        calc n < 256 ^ (k + 1) := hn
          _ = 256 ^ k * 256 := by ring
      have := ih (n / 256) hdiv
      simp only [List.length_append, List.length_cons, List.length_nil]
      omega

theorem natToMinBe_head_ne_zero (n : Nat) (h : n ≠ 0) :
    ∃ b, (natToMinBe n).head? = some b ∧ b ≠ 0 := by
  induction n using Nat.strong_induction_on with
  | _ n ih =>
    rw [natToMinBe, dif_neg h]
    by_cases h2 : n / 256 = 0
    · have hlt : n < 256 := by
        by_contra hge
        push_neg at hge
        have : 1 ≤ n / 256 := (Nat.one_le_div_iff (by omega)).mpr hge
        omega
      have hsmall : n % 256 = n := Nat.mod_eq_of_lt hlt
      rw [h2]
      simp [natToMinBe, hsmall]
      exact h
    · obtain ⟨b, hb, hbne⟩ :=
        ih (n / 256) (Nat.div_lt_self (Nat.pos_of_ne_zero h) (by omega)) h2
      refine ⟨b, ?_, hbne⟩
      rw [List.head?_append_of_ne_nil]
      · exact hb
      · intro hnil; rw [hnil] at hb; simp at hb

theorem beBytesToNat_replicate_zero_append (k : Nat) (bs : List Nat) :
    beBytesToNat (List.replicate k 0 ++ bs) = beBytesToNat bs := by
  rw [beBytesToNat_append]
  have : beBytesToNat (List.replicate k 0) = 0 := by
    induction k with
    | zero => simp [beBytesToNat]
    | succ k ihk =>
      have : List.replicate (k + 1) 0 = List.replicate k 0 ++ [0] := by
        rw [← List.replicate_succ']
      rw [this, beBytesToNat_append, ihk]
      simp [beBytesToNat]
  rw [this]
  simp

theorem beBytesToNat_natToFixedBe (w n : Nat) :
    beBytesToNat (natToFixedBe w n) = n := by
  rw [natToFixedBe, beBytesToNat_replicate_zero_append, beBytesToNat_natToMinBe]

theorem natToFixedBe_length (w n : Nat) (h : n < 256 ^ w) :
    (natToFixedBe w n).length = w := by
  have := natToMinBe_length_le w n h
  simp only [natToFixedBe, List.length_append, List.length_replicate]
  omega

/-! ## The RLP stream interface

`trin-core/src/types/header.rs` serializes headers through the parity
`rlp` crate's `RlpStream`/`Rlp` interface: `stream_rlp` declares a list and
appends typed field values; `decode` reads typed values back by position
with `rlp.val_at(i)`.  We embed that interface: an `RlpItem` is either a
byte string or a list of items, each `s.append(&v)` becomes the
per-type value encoder below, and `rlp.val_at::<T>(i)` becomes list
indexing followed by the per-type value decoder.  The per-type codecs
mirror the `rlp` crate's `Encodable`/`Decodable` impls: fixed-width hash
types (`H256`, `H160`/`Address`, `Bloom`) are the full `w` bytes and
decoding demands exactly `w` bytes; unsigned integers (`U256`, `u64`) are
minimal big-endian with at most `w` bytes and no leading zero byte;
`Vec<u8>` is the raw byte string. -/

/-- An RLP value at the `RlpStream`/`Rlp` interface: a byte string or a
list of RLP values. -/
inductive RlpItem where
  | str : List Nat → RlpItem
  | list : List RlpItem → RlpItem

/-- `s.append(&v)` for a fixed-width type of `w` bytes (`H256` with
`w = 32`, `Address` with `w = 20`, `Bloom` with `w = 256`): the full
`w`-byte big-endian string. -/
def encFixed (w n : Nat) : RlpItem := .str (natToFixedBe w n)

/-- `s.append(&v)` for an unsigned-integer type (`U256`, `u64`): the
minimal big-endian byte string. -/
def encUint (n : Nat) : RlpItem := .str (natToMinBe n)

/-- `rlp.val_at::<T>(i)`'s value decoding for a fixed-width `w`-byte type:
fails unless the item is a byte string of exactly `w` bytes. -/
def decFixed (w : Nat) : RlpItem → Option Nat
  | .str bs => if bs.length = w then some (beBytesToNat bs) else none
  | .list _ => none

/-- `rlp.val_at::<T>(i)`'s value decoding for an unsigned-integer type of
at most `w` bytes (`U256` with `w = 32`, `u64` with `w = 8`): fails on a
list, on more than `w` bytes, or on a leading zero byte. -/
def decUint (w : Nat) : RlpItem → Option Nat
  | .str bs =>
      if bs.length ≤ w ∧ bs.head? ≠ some 0 then some (beBytesToNat bs)
      else none
  | .list _ => none

/-- `rlp.val_at::<Vec<u8>>(i)`'s value decoding: the raw byte string. -/
def decBytes : RlpItem → Option (List Nat)
  | .str bs => some bs
  | .list _ => none

theorem decFixed_encFixed (w n : Nat) (h : n < 256 ^ w) :
    decFixed w (encFixed w n) = some n := by
  simp [decFixed, encFixed, natToFixedBe_length w n h, beBytesToNat_natToFixedBe]

theorem decUint_encUint (w n : Nat) (h : n < 256 ^ w) :
    decUint w (encUint n) = some n := by
  simp only [decUint, encUint]
  have hlen := natToMinBe_length_le w n h
  have hhead : (natToMinBe n).head? ≠ some 0 := by
    by_cases h0 : n = 0
    · subst h0; simp [natToMinBe]
    · obtain ⟨b, hb, hbne⟩ := natToMinBe_head_ne_zero n h0
      rw [hb]
      simp [hbne]
  rw [if_pos ⟨hlen, hhead⟩, beBytesToNat_natToMinBe]

/-! ## The block header (`trin-core/src/types/header.rs`)

Field for field the Rust `Header` struct; `H256`/`Address`/`Bloom`/`U256`/
`u64` values are `Nat`s (width bounds appear as theorem hypotheses, as
they are enforced by the Rust types).  The derived structure equality
coincides with the hand-written field-by-field `PartialEq` impl. -/

/-- `LONDON_BLOCK_NUMBER` in `header.rs`. -/
def LONDON_BLOCK_NUMBER : Nat := 12965000

structure Header where
  parent_hash : Nat
  uncles_hash : Nat
  author : Nat
  state_root : Nat
  transactions_root : Nat
  receipts_root : Nat
  log_bloom : Nat
  difficulty : Nat
  number : Nat
  gas_limit : Nat
  gas_used : Nat
  timestamp : Nat
  extra_data : List Nat
  mix_hash : Option Nat
  nonce : Option Nat
  base_fee_per_gas : Option Nat
deriving DecidableEq, Repr

namespace Header

/-- `Header::stream_rlp(&self, s, with_seal)`: appends the 13 base fields,
then — exactly when `with_seal` holds and both `mix_hash` and `nonce` are
present — the two seal fields, then — exactly when present —
`base_fee_per_gas`.  The `begin_list` length declared by the Rust code
(13/14 plus 2 for the seal) always equals the number of items appended, so
the stream is embedded as the list of appended items. -/
def stream_rlp (h : Header) (with_seal : Bool) : RlpItem :=
  let base : List RlpItem :=
    [encFixed 32 h.parent_hash,
     encFixed 32 h.uncles_hash,
     encFixed 20 h.author,
     encFixed 32 h.state_root,
     encFixed 32 h.transactions_root,
     encFixed 32 h.receipts_root,
     encFixed 256 h.log_bloom,
     encUint h.difficulty,
     encUint h.number,
     encUint h.gas_limit,
     encUint h.gas_used,
     encUint h.timestamp,
     .str h.extra_data]
  let sealFields : List RlpItem :=
    if with_seal ∧ h.mix_hash.isSome ∧ h.nonce.isSome then
      [encFixed 32 (h.mix_hash.getD 0), encUint (h.nonce.getD 0)]
    else []
  let basefee : List RlpItem :=
    match h.base_fee_per_gas with
    | some b => [encUint b]
    | none => []
  .list (base ++ sealFields ++ basefee)

/-- `impl Encodable for Header`: `rlp_append` streams with `with_seal =
true`. -/
def rlp_append (h : Header) : RlpItem := h.stream_rlp true

/-- `impl Decodable for Header`: reads the 15 positional fields
(`val_at(0)`‥`val_at(14)`, the last two giving `mix_hash` and `nonce`),
then reads `base_fee_per_gas` from position 15 exactly when the decoded
`number` is at least `LONDON_BLOCK_NUMBER`. -/
def decode : RlpItem → Option Header
  | .str _ => none
  | .list items => do
      let parent_hash ← items.get? 0 >>= decFixed 32
      let uncles_hash ← items.get? 1 >>= decFixed 32
      let author ← items.get? 2 >>= decFixed 20
      let state_root ← items.get? 3 >>= decFixed 32
      let transactions_root ← items.get? 4 >>= decFixed 32
      let receipts_root ← items.get? 5 >>= decFixed 32
      let log_bloom ← items.get? 6 >>= decFixed 256
      let difficulty ← items.get? 7 >>= decUint 32
      let number ← items.get? 8 >>= decUint 8
      let gas_limit ← items.get? 9 >>= decUint 32
      let gas_used ← items.get? 10 >>= decUint 32
      let timestamp ← items.get? 11 >>= decUint 8
      let extra_data ← items.get? 12 >>= decBytes
      let mix_hash ← items.get? 13 >>= decFixed 32
      let nonce ← items.get? 14 >>= decUint 8
      if LONDON_BLOCK_NUMBER ≤ number then do
        let base_fee ← items.get? 15 >>= decUint 32
        some { parent_hash, uncles_hash, author, state_root,
               transactions_root, receipts_root, log_bloom, difficulty,
               number, gas_limit, gas_used, timestamp, extra_data,
               mix_hash := some mix_hash, nonce := some nonce,
               base_fee_per_gas := some base_fee }
      else
        some { parent_hash, uncles_hash, author, state_root,
               transactions_root, receipts_root, log_bloom, difficulty,
               number, gas_limit, gas_used, timestamp, extra_data,
               mix_hash := some mix_hash, nonce := some nonce,
               base_fee_per_gas := none }

end Header

/-- Claim C9: for every header whose seal fields (`mix_hash`, `nonce`) are
both present and whose `base_fee_per_gas` is present exactly when `number`
is at least `LONDON_BLOCK_NUMBER` (12965000), RLP-decoding the
RLP-encoding at the `Encodable`/`Decodable` interface returns exactly the
original header.  The width bounds are the invariants of the Rust field
types (`H256`, `H160`, `Bloom`, `U256`, `u64`). -/
theorem C9_header_rlp_roundtrip (h : Header)
    (hm : h.mix_hash.isSome = true) (hn : h.nonce.isSome = true)
    (hb : h.base_fee_per_gas.isSome = true ↔ LONDON_BLOCK_NUMBER ≤ h.number)
    (b1 : h.parent_hash < 256 ^ 32) (b2 : h.uncles_hash < 256 ^ 32)
    (b3 : h.author < 256 ^ 20) (b4 : h.state_root < 256 ^ 32)
    (b5 : h.transactions_root < 256 ^ 32) (b6 : h.receipts_root < 256 ^ 32)
    (b7 : h.log_bloom < 256 ^ 256) (b8 : h.difficulty < 256 ^ 32)
    (b9 : h.number < 256 ^ 8) (b10 : h.gas_limit < 256 ^ 32)
    (b11 : h.gas_used < 256 ^ 32) (b12 : h.timestamp < 256 ^ 8)
    (b13 : h.mix_hash.getD 0 < 256 ^ 32) (b14 : h.nonce.getD 0 < 256 ^ 8)
    (b15 : h.base_fee_per_gas.getD 0 < 256 ^ 32) :
    Header.decode (Header.rlp_append h) = some h := by
  obtain ⟨m, hm'⟩ := Option.isSome_iff_exists.mp hm
  obtain ⟨sn, hn'⟩ := Option.isSome_iff_exists.mp hn
  rw [hm'] at b13
  rw [hn'] at b14
  simp only [Option.getD_some] at b13 b14
  by_cases hlondon : LONDON_BLOCK_NUMBER ≤ h.number
  · obtain ⟨bf, hbf⟩ := Option.isSome_iff_exists.mp (hb.mpr hlondon)
    rw [hbf] at b15
    simp only [Option.getD_some] at b15
    have henc : Header.rlp_append h = RlpItem.list
        [encFixed 32 h.parent_hash, encFixed 32 h.uncles_hash,
         encFixed 20 h.author, encFixed 32 h.state_root,
         encFixed 32 h.transactions_root, encFixed 32 h.receipts_root,
         encFixed 256 h.log_bloom, encUint h.difficulty,
         encUint h.number, encUint h.gas_limit, encUint h.gas_used,
         encUint h.timestamp, .str h.extra_data,
         encFixed 32 m, encUint sn, encUint bf] := by
      simp [Header.rlp_append, Header.stream_rlp, hm', hn', hbf]
    rw [henc]
    simp only [Header.decode, List.get?_cons_zero, List.get?_cons_succ,
      Option.bind_eq_bind', Option.some_bind',
      decFixed_encFixed 32 h.parent_hash b1,
      decFixed_encFixed 32 h.uncles_hash b2,
      decFixed_encFixed 20 h.author b3,
      decFixed_encFixed 32 h.state_root b4,
      decFixed_encFixed 32 h.transactions_root b5,
      decFixed_encFixed 32 h.receipts_root b6,
      decFixed_encFixed 256 h.log_bloom b7,
      decUint_encUint 32 h.difficulty b8,
      decUint_encUint 8 h.number b9,
      decUint_encUint 32 h.gas_limit b10,
      decUint_encUint 32 h.gas_used b11,
      decUint_encUint 8 h.timestamp b12,
      decFixed_encFixed 32 m b13,
      decUint_encUint 8 sn b14,
      decUint_encUint 32 bf b15,
      decBytes]
    rw [if_pos hlondon]
    rw [← hm', ← hn', ← hbf]
  · have hnone : h.base_fee_per_gas = none := by
      cases hbfe : h.base_fee_per_gas with
      | none => rfl
      | some bf =>
        exfalso
        exact hlondon (hb.mp (by rw [hbfe]; rfl))
    have henc : Header.rlp_append h = RlpItem.list
        [encFixed 32 h.parent_hash, encFixed 32 h.uncles_hash,
         encFixed 20 h.author, encFixed 32 h.state_root,
         encFixed 32 h.transactions_root, encFixed 32 h.receipts_root,
         encFixed 256 h.log_bloom, encUint h.difficulty,
         encUint h.number, encUint h.gas_limit, encUint h.gas_used,
         encUint h.timestamp, .str h.extra_data,
         encFixed 32 m, encUint sn] := by
      simp [Header.rlp_append, Header.stream_rlp, hm', hn', hnone]
    rw [henc]
    simp only [Header.decode, List.get?_cons_zero, List.get?_cons_succ,
      Option.bind_eq_bind', Option.some_bind',
      decFixed_encFixed 32 h.parent_hash b1,
      decFixed_encFixed 32 h.uncles_hash b2,
      decFixed_encFixed 20 h.author b3,
      decFixed_encFixed 32 h.state_root b4,
      decFixed_encFixed 32 h.transactions_root b5,
      decFixed_encFixed 32 h.receipts_root b6,
      decFixed_encFixed 256 h.log_bloom b7,
      decUint_encUint 32 h.difficulty b8,
      decUint_encUint 8 h.number b9,
      decUint_encUint 32 h.gas_limit b10,
      decUint_encUint 32 h.gas_used b11,
      decUint_encUint 8 h.timestamp b12,
      decFixed_encFixed 32 m b13,
      decUint_encUint 8 sn b14,
      decBytes]
    rw [if_neg hlondon]
    rw [← hm', ← hn', ← hnone]

/-! ## Discovery transport adapter (`trin-core/src/portalnet/discovery.rs`)

`Discovery` wraps the external `discv5` crate.  The external pieces are
modelled at their interfaces:

* `CombinedKey::secp256k1_from_bytes` succeeds exactly on a 32-byte
  big-endian encoding of a scalar in `[1, group order)`;
* `CombinedKey::generate_secp256k1` is nondeterministic, so the generated
  scalar is a parameter `genKey`;
* the `Discv5` service state is its local ENR, its routing table and a
  running flag; `Discv5::add_enr` may reject an ENR (table policy of the
  external crate), which is a parameter `canAdd`; `Discv5::start` on an
  already-running service returns the crate's `ServiceAlreadyStarted`
  error; `Discv5::find_node` returns the nodes found by the query, a
  parameter of the operation;
* `EnrBuilder::build` signs the local ENR with the (valid) key, and
  `Discv5::new` accepts an ENR signed by the key it is given, so neither
  fails on this path; the node id derived from the key is abstracted as
  the key scalar itself.

A Rust `.unwrap()` on an `Err` is the distinguished `panic` outcome of
`RResult`. -/

/-- Outcome of a fallible Rust computation: `Ok`, `Err`, or a panic
(`unwrap` of an error / `expect`). -/
inductive RResult (α ε : Type) where
  | ok : α → RResult α ε
  | err : ε → RResult α ε
  | panic : RResult α ε
deriving DecidableEq, Repr

/-- Whether an `RResult` is the `Err` outcome. -/
def RResult.isErr {α ε : Type} : RResult α ε → Bool
  | .err _ => true
  | _ => false

/-- `HexData` (`trin-core`): raw private-key bytes supplied in the config. -/
structure HexData where
  bytes : List Nat
deriving DecidableEq, Repr

/-- An ENR: remote peer descriptor, equality by node id. -/
structure Enr where
  nodeId : Nat
deriving DecidableEq, Repr

/-- The secp256k1 group order (the valid secret scalars are `1 ≤ k <`
this). -/
def secp256k1Order : Nat :=
  0xFFFFFFFFFFFFFFFFFFFFFFFFFFFFFFFEBAAEDCE6AF48A03BBFDF2B8CD0364141

/-- Models the external `CombinedKey::secp256k1_from_bytes`: succeeds
exactly on a 32-byte big-endian encoding of a scalar in
`[1, secp256k1Order)`. -/
def secp256k1_from_bytes (b : List Nat) : Option Nat :=
  let n := beBytesToNat b
  if b.length = 32 ∧ 0 < n ∧ n < secp256k1Order then some n else none

/-- Models the external `Discv5` service state: local ENR, routing table,
and whether the service has been started. -/
structure Discv5 where
  local_enr : Enr
  table : List Enr
  running : Bool
deriving DecidableEq, Repr

/-- Models the external `Discv5::add_enr`: the crate may reject an ENR
(`canAdd` is its acceptance policy); on success the ENR is inserted into
the routing table. -/
def Discv5.add_enr (canAdd : Enr → Bool) (d : Discv5) (e : Enr) :
    Except String Discv5 :=
  if canAdd e then .ok { d with table := d.table ++ [e] }
  else .error "failed to insert ENR"

/-- Models the external `Discv5::start`: returns the crate's
`ServiceAlreadyStarted` error when the service is already running,
otherwise starts it. -/
def Discv5.start (d : Discv5) : Except String Discv5 :=
  if d.running then .error "ServiceAlreadyStarted"
  else .ok { d with running := true }

/-- `Config` in `discovery.rs` (the opaque `discv5_config` is omitted; the
listen address is an abstract numeric value). -/
structure Config where
  listen_address : Nat
  listen_port : Nat
  bootnode_enrs : List Enr
  private_key : Option HexData
deriving DecidableEq, Repr

/-- Whether the config supplies key material that
`secp256k1_from_bytes` rejects. -/
def Config.keyMalformed (c : Config) : Bool :=
  match c.private_key with
  | some val => (secp256k1_from_bytes val.bytes).isNone
  | none => false

/-- The `for enr in config.bootnode_enrs { discv5.add_enr(enr)? }` loop of
`Discovery::new`: stops at the first rejected ENR with an error. -/
def addBootnodes (canAdd : Enr → Bool) (d : Discv5) :
    List Enr → Except String Discv5
  | [] => .ok d
  | e :: rest =>
      match d.add_enr canAdd e with
      | .error msg => .error ("Failed to add enr: " ++ msg)
      | .ok d2 => addBootnodes canAdd d2 rest

/-- The `Discovery` struct: the wrapped service plus the `started` flag. -/
structure Discovery where
  discv5 : Discv5
  started : Bool
deriving DecidableEq, Repr

/-- The tail of `Discovery::new` once the ENR key is in hand: builds the
local ENR, creates the service, and registers the bootstrap ENRs,
propagating a rejection as `Err`; `started` begins `false`. -/
def Discovery.newWithKey (canAdd : Enr → Bool) (config : Config)
    (enr_key : Nat) : RResult Discovery String :=
  let enr : Enr := ⟨enr_key⟩
  let discv5 : Discv5 := { local_enr := enr, table := [], running := false }
  match addBootnodes canAdd discv5 config.bootnode_enrs with
  | .error msg => .err msg
  | .ok discv5 => .ok { discv5 := discv5, started := false }

/-- `Discovery::new(config)`: derives the key from the supplied material
(`.unwrap()` — panic — when it is malformed) or uses a freshly generated
one (`genKey`), then continues with `Discovery.newWithKey`. -/
def Discovery.new (canAdd : Enr → Bool) (genKey : Nat) (config : Config) :
    RResult Discovery String :=
  match config.private_key with
  | some val =>
      match secp256k1_from_bytes val.bytes with
      | none => .panic
      | some key => Discovery.newWithKey canAdd config key
  | none => Discovery.newWithKey canAdd config genKey

/-- `Discovery::start`: starts the wrapped service, propagating its error
(with `self` unchanged); on success sets `started := true`. -/
def Discovery.start (d : Discovery) : Discovery × Except String Unit :=
  match d.discv5.start with
  | .error e => (d, .error ("Failed to start discv5 server: " ++ e))
  | .ok d5 => ({ discv5 := d5, started := true }, .ok ())

/-- The `for node in nodes { discv5.add_enr(node)? }` loop of
`discover_nodes`: on a rejection the loop returns early with the nodes
added so far kept. -/
def addNodesPartial (canAdd : Enr → Bool) (d : Discv5) :
    List Enr → Discv5 × Except String Unit
  | [] => (d, .ok ())
  | e :: rest =>
      match d.add_enr canAdd e with
      | .error msg => (d, .error ("Failed to add node to dht: " ++ msg))
      | .ok d2 => addNodesPartial canAdd d2 rest

/-- `Discovery::discover_nodes`: one random-target `find_node` query
(`queryOk` and `found` are the external query's outcome), merging the
found nodes into the table. -/
def Discovery.discover_nodes (d : Discovery) (queryOk : Bool)
    (found : List Enr) (canAdd : Enr → Bool) :
    Discovery × Except String Unit :=
  if queryOk then
    let p := addNodesPartial canAdd d.discv5 found
    ({ d with discv5 := p.1 }, p.2)
  else (d, .error "FindNode query failed")

/-- The operations available on a constructed `Discovery` value. -/
inductive DiscoveryOp where
  | start
  | connected_peers_len
  | connected_peers
  | local_enr
  | discover_nodes (queryOk : Bool) (found : List Enr) (canAdd : Enr → Bool)
  | send_talkreq

/-- The state transition of each `Discovery` operation
(`connected_peers_len`, `connected_peers`, `local_enr` and `send_talkreq`
read the service but change no `Discovery` field). -/
def Discovery.applyOp : DiscoveryOp → Discovery → Discovery
  | .start, d => (d.start).1
  | .discover_nodes queryOk found canAdd, d =>
      (d.discover_nodes queryOk found canAdd).1
  | .connected_peers_len, d => d
  | .connected_peers, d => d
  | .local_enr, d => d
  | .send_talkreq, d => d

theorem addBootnodes_all_ok (canAdd : Enr → Bool) (d : Discv5) (es : List Enr)
    (h : ∀ e ∈ es, canAdd e = true) :
    addBootnodes canAdd d es = .ok { d with table := d.table ++ es } := by
  induction es generalizing d with
  | nil => simp [addBootnodes]
  | cons e rest ih =>
    have he : canAdd e = true := h e (by simp)
    simp only [addBootnodes, Discv5.add_enr, he, if_true]
    rw [ih _ fun x hx => h x (by simp [hx])]
    simp

theorem addBootnodes_err_of_bad (canAdd : Enr → Bool) (d : Discv5)
    (es : List Enr) (h : ∃ e ∈ es, canAdd e = false) :
    ∃ msg, addBootnodes canAdd d es = .error msg := by
  induction es generalizing d with
  | nil => simp at h
  | cons e rest ih =>
    by_cases he : canAdd e = true
    · obtain ⟨x, hx, hxf⟩ := h
      rcases List.mem_cons.mp hx with rfl | hx'
      · rw [he] at hxf; cases hxf
      · simp only [addBootnodes, Discv5.add_enr, he, if_true]
        exact ih _ ⟨x, hx', hxf⟩
    · refine ⟨"Failed to add enr: failed to insert ENR", ?_⟩
      simp [addBootnodes, Discv5.add_enr, he]

theorem newWithKey_ok (canAdd : Enr → Bool) (config : Config) (k : Nat)
    (h : ∀ e ∈ config.bootnode_enrs, canAdd e = true) :
    Discovery.newWithKey canAdd config k =
      RResult.ok
        { discv5 := { local_enr := ⟨k⟩, table := config.bootnode_enrs,
                      running := false },
          started := false } := by
  simp [Discovery.newWithKey, addBootnodes_all_ok canAdd _ _ h]

theorem newWithKey_err (canAdd : Enr → Bool) (config : Config) (k : Nat)
    (h : ∃ e ∈ config.bootnode_enrs, canAdd e = false) :
    ∃ msg, Discovery.newWithKey canAdd config k = RResult.err msg := by
  obtain ⟨msg, hmsg⟩ := addBootnodes_err_of_bad canAdd
    { local_enr := ⟨k⟩, table := [], running := false }
    config.bootnode_enrs h
  exact ⟨msg, by simp [Discovery.newWithKey, hmsg]⟩

theorem newWithKey_started_false (canAdd : Enr → Bool) (config : Config)
    (k : Nat) (d : Discovery)
    (h : Discovery.newWithKey canAdd config k = RResult.ok d) :
    d.started = false := by
  simp only [Discovery.newWithKey] at h
  split at h
  · cases h
  · cases h; rfl

/-- A config whose supplied key material is malformed: the empty byte
string is not a 32-byte secp256k1 scalar. -/
def badKeyConfig : Config :=
  { listen_address := 0, listen_port := 4242, bootnode_enrs := [],
    private_key := some ⟨[]⟩ }

/-- Claim C1 counterexample: on a config with malformed key material
(`badKeyConfig`), `Discovery::new` panics — the `.unwrap()` on the failed
key parse — rather than handing back an `Err` value, so the claim as
stated is false. -/
theorem C1_counterexample :
    Discovery.new (fun _ => true) 1 badKeyConfig = RResult.panic ∧
    (Discovery.new (fun _ => true) 1 badKeyConfig).isErr = false := by
  exact ⟨rfl, rfl⟩

/-- Claim C1 (amended): `Discovery::new` panics (an `.unwrap()`) on
malformed key material; with well-formed (or absent) key material it
returns an `Err` when some supplied bootstrap ENR cannot be added to the
routing table, and on success every supplied bootstrap ENR has been
registered into the routing table. -/
theorem C1_discovery_new_amended (canAdd : Enr → Bool) (genKey : Nat)
    (config : Config) :
    (config.keyMalformed = true →
      Discovery.new canAdd genKey config = RResult.panic) ∧
    (config.keyMalformed = false →
      ((∀ e ∈ config.bootnode_enrs, canAdd e = true) →
        ∃ d, Discovery.new canAdd genKey config = RResult.ok d ∧
          d.started = false ∧
          ∀ e ∈ config.bootnode_enrs, e ∈ d.discv5.table) ∧
      ((∃ e ∈ config.bootnode_enrs, canAdd e = false) →
        ∃ msg, Discovery.new canAdd genKey config = RResult.err msg)) := by
  cases hpk : config.private_key with
  | some val =>
    cases hkey : secp256k1_from_bytes val.bytes with
    | none =>
      constructor
      · intro _
        simp [Discovery.new, hpk, hkey]
      · intro hf
        simp [Config.keyMalformed, hpk, hkey] at hf
    | some k =>
      constructor
      · intro ht
        simp [Config.keyMalformed, hpk, hkey] at ht
      · intro _
        constructor
        · intro hall
          refine ⟨{ discv5 := { local_enr := ⟨k⟩,
                                table := config.bootnode_enrs,
                                running := false },
                    started := false }, ?_, rfl, fun e he => he⟩
          simp only [Discovery.new, hpk, hkey]
          exact newWithKey_ok canAdd config k hall
        · intro hbad
          obtain ⟨msg, hmsg⟩ := newWithKey_err canAdd config k hbad
          exact ⟨msg, by simp only [Discovery.new, hpk, hkey]; exact hmsg⟩
  | none =>
    constructor
    · intro ht
      simp [Config.keyMalformed, hpk] at ht
    · intro _
      constructor
      · intro hall
        refine ⟨{ discv5 := { local_enr := ⟨genKey⟩,
                              table := config.bootnode_enrs,
                              running := false },
                  started := false }, ?_, rfl, fun e he => he⟩
        simp only [Discovery.new, hpk]
        exact newWithKey_ok canAdd config genKey hall
      · intro hbad
        obtain ⟨msg, hmsg⟩ := newWithKey_err canAdd config genKey hbad
        exact ⟨msg, by simp only [Discovery.new, hpk]; exact hmsg⟩

/-- A config with no supplied key material and one bootstrap ENR. -/
def goodConfig : Config :=
  { listen_address := 0, listen_port := 4242, bootnode_enrs := [⟨5⟩],
    private_key := none }

/-- Witness for the amended claim C1: on `goodConfig` (well-formed,
one addable bootstrap ENR) construction succeeds with the ENR
registered. -/
theorem C1_discovery_new_amended_witness :
    ∃ d, Discovery.new (fun _ => true) 7 goodConfig = RResult.ok d ∧
      d.started = false ∧
      ∀ e ∈ goodConfig.bootnode_enrs, e ∈ d.discv5.table :=
  ((C1_discovery_new_amended (fun _ => true) 7 goodConfig).2
    (by decide)).1 (by decide)

/-- Claim C5: starting from a not-yet-running service, the first
`Discovery::start` succeeds (and sets `started`), and a second call
returns the explicit `ServiceAlreadyStarted`-style error propagated from
the service, leaving the state unchanged — a defined, consistent
outcome. -/
theorem C5_double_start (d : Discovery) (h : d.discv5.running = false) :
    (d.start).2 = Except.ok () ∧
    ((d.start).1).started = true ∧
    (((d.start).1).start).2 =
      Except.error "Failed to start discv5 server: ServiceAlreadyStarted" ∧
    (((d.start).1).start).1 = (d.start).1 := by
  simp [Discovery.start, Discv5.start, h]

/-- A freshly constructed `Discovery`: nothing running, not started. -/
def disc0 : Discovery :=
  { discv5 := { local_enr := ⟨7⟩, table := [⟨5⟩], running := false },
    started := false }

/-- Witness for claim C5 at the concrete value `disc0`. -/
theorem C5_double_start_witness :
    (disc0.start).2 = Except.ok () ∧
    ((disc0.start).1).started = true ∧
    (((disc0.start).1).start).2 =
      Except.error "Failed to start discv5 server: ServiceAlreadyStarted" ∧
    (((disc0.start).1).start).1 = (disc0.start).1 :=
  C5_double_start disc0 rfl

/-- Claim C10: `started` is `false` on every `Discovery` returned by
`new`; every operation preserves `started = true`; and the only operation
that turns `started` from `false` to `true` is a `start` whose underlying
service start succeeded. -/
theorem C10_started_monotone :
    (∀ (canAdd : Enr → Bool) (genKey : Nat) (config : Config)
        (d : Discovery),
        Discovery.new canAdd genKey config = RResult.ok d →
          d.started = false) ∧
    (∀ (op : DiscoveryOp) (d : Discovery), d.started = true →
        (Discovery.applyOp op d).started = true) ∧
    (∀ (op : DiscoveryOp) (d : Discovery), d.started = false →
        (Discovery.applyOp op d).started = true →
        op = DiscoveryOp.start ∧ (d.start).2 = Except.ok ()) := by
  refine ⟨?_, ?_, ?_⟩
  · intro canAdd genKey config d hnew
    simp only [Discovery.new] at hnew
    split at hnew
    · split at hnew
      · cases hnew
      · exact newWithKey_started_false _ _ _ _ hnew
    · exact newWithKey_started_false _ _ _ _ hnew
  · intro op d h
    cases op with
    | start =>
      simp only [Discovery.applyOp, Discovery.start]
      split
      · exact h
      · rfl
    | discover_nodes queryOk found canAdd =>
      simp only [Discovery.applyOp, Discovery.discover_nodes]
      split
      · exact h
      · exact h
    | connected_peers_len => exact h
    | connected_peers => exact h
    | local_enr => exact h
    | send_talkreq => exact h
  · intro op d h0 h1
    cases op with
    | start =>
      refine ⟨rfl, ?_⟩
      simp only [Discovery.applyOp, Discovery.start] at h1 ⊢
      split at h1
      · rw [h1] at h0; cases h0
      · rfl
    | discover_nodes queryOk found canAdd =>
      exfalso
      simp only [Discovery.applyOp, Discovery.discover_nodes] at h1
      split at h1
      · exact Bool.noConfusion (h0.symm.trans h1)
      · exact Bool.noConfusion (h0.symm.trans h1)
    | connected_peers_len => exact Bool.noConfusion (h0.symm.trans h1)
    | connected_peers => exact Bool.noConfusion (h0.symm.trans h1)
    | local_enr => exact Bool.noConfusion (h0.symm.trans h1)
    | send_talkreq => exact Bool.noConfusion (h0.symm.trans h1)

/-- A started `Discovery` (service running, flag set). -/
def discStarted : Discovery :=
  { discv5 := { local_enr := ⟨7⟩, table := [⟨5⟩], running := true },
    started := true }

/-- Witness for claim C10: each conjunct applied at concrete values — a
concrete successful `new` has `started = false`; an operation on a started
value keeps the flag; a successful `start` from unstarted is the only
false-to-true step. -/
theorem C10_started_monotone_witness :
    ({ discv5 := { local_enr := ⟨7⟩, table := [⟨5⟩], running := false },
       started := false } : Discovery).started = false ∧
    (Discovery.applyOp DiscoveryOp.send_talkreq discStarted).started =
      true ∧
    (DiscoveryOp.start = DiscoveryOp.start ∧
      (disc0.start).2 = Except.ok ()) :=
  ⟨C10_started_monotone.1 (fun _ => true) 7 goodConfig _ (by decide),
   C10_started_monotone.2.1 DiscoveryOp.send_talkreq discStarted rfl,
   C10_started_monotone.2.2 DiscoveryOp.start disc0 rfl (by decide)⟩

/-! ## Subnetwork endpoint router (`trin-state/src/lib.rs`)

`StateRequestHandler::handle_client_queries` is a single consumer loop:
`while let Some(cmd) = self.state_rx.recv().await { match cmd.kind { … } }`.
The unbounded mpsc queue delivers commands in arrival order, so a run of
the loop over the commands the queue ever carries is embedded as a pure
function from that (arrival-ordered) list to the trace of router events,
each tagged with the queue position of the command it concerns.  A
command's one-shot reply slot can fail at send time when the caller has
dropped the receiving end; that environment fact is the `respDropped`
field, and the `let _ = cmd.resp.send(…)` in the Rust code discards the
send's result either way. -/

/-- `StateEndpointKind`: the closed set of state-network commands. -/
inductive StateEndpointKind where
  | GetStateNetworkData
deriving DecidableEq, Repr

/-- The `serde_json::Value` payloads the handler produces (only the string
variant occurs). -/
inductive JsonValue where
  | str : String → JsonValue
deriving DecidableEq, Repr

/-- The `Result<Value, _>` payload sent on a reply slot. -/
inductive Reply where
  | ok : JsonValue → Reply
  | err : String → Reply
deriving DecidableEq, Repr

/-- `StateNetworkEndpoint`: a command kind plus its one-shot reply slot;
`respDropped` records whether the caller has dropped the slot's receiver
(making the send fail). -/
structure StateNetworkEndpoint where
  kind : StateEndpointKind
  respDropped : Bool
deriving DecidableEq, Repr

/-- Events of one run of `handle_client_queries`, tagged with the queue
position of the command concerned: the dequeue of a command, a delivered
reply send, or a reply send that failed because the slot's receiver was
gone. -/
inductive RouterEvent where
  | dequeued : Nat → RouterEvent
  | replySent : Nat → Reply → RouterEvent
  | replyDropped : Nat → Reply → RouterEvent
deriving DecidableEq, Repr

/-- Whether an event is the reply send on command `i`'s slot (delivered or
failed). -/
def RouterEvent.isReplyTo (i : Nat) : RouterEvent → Bool
  | .replySent j _ => j == i
  | .replyDropped j _ => j == i
  | .dequeued _ => false

/-- The one `cmd.resp.send(v)` on command `i`'s slot: delivered, or failed
because the receiver was dropped; the loop ignores the outcome
(`let _ = …`). -/
def sendReply (i : Nat) (c : StateNetworkEndpoint)
    (v : Reply) : RouterEvent :=
  if c.respDropped then .replyDropped i v else .replySent i v

/-- The consumer loop of `handle_client_queries`, processing the commands
from queue position `k` on: each iteration dequeues one command and — by
kind — performs exactly one reply send (`GetStateNetworkData` answers
`Ok(Value::String("0xmockstatedata"))`), then continues with the next
command. -/
def handleClientQueriesFrom (k : Nat) :
    List StateNetworkEndpoint → List RouterEvent
  | [] => []
  | c :: rest =>
      .dequeued k ::
      (match c.kind with
       | .GetStateNetworkData =>
           sendReply k c (Reply.ok (JsonValue.str "0xmockstatedata"))) ::
      handleClientQueriesFrom (k + 1) rest

/-- `StateRequestHandler::handle_client_queries`: the loop from the head
of the queue. -/
def handle_client_queries (cmds : List StateNetworkEndpoint) :
    List RouterEvent :=
  handleClientQueriesFrom 0 cmds

theorem isReplyTo_sendReply (i k : Nat) (c : StateNetworkEndpoint)
    (v : Reply) :
    RouterEvent.isReplyTo i (sendReply k c v) = (k == i) := by
  unfold sendReply
  cases hd : c.respDropped <;> simp [RouterEvent.isReplyTo]

theorem handleFrom_get (cmds : List StateNetworkEndpoint) (j k : Nat)
    (c : StateNetworkEndpoint) (hc : cmds.get? j = some c) :
    (handleClientQueriesFrom k cmds).get? (2 * j) =
      some (RouterEvent.dequeued (k + j)) ∧
    (handleClientQueriesFrom k cmds).get? (2 * j + 1) =
      some (sendReply (k + j) c
        (Reply.ok (JsonValue.str "0xmockstatedata"))) := by
  induction cmds generalizing j k with
  | nil => cases hc
  | cons c0 rest ih =>
    cases j with
    | zero =>
      rw [List.get?_cons_zero] at hc
      cases hc
      cases hck : c.kind
      constructor
      · simp [handleClientQueriesFrom]
      · simp [handleClientQueriesFrom, hck]
    | succ j =>
      rw [List.get?_cons_succ] at hc
      have harith : k + 1 + j = k + (j + 1) := by omega
      constructor
      · rw [show 2 * (j + 1) = (2 * j + 1) + 1 by ring]
        simp only [handleClientQueriesFrom, List.get?_cons_succ]
        rw [(ih j (k + 1) hc).1, harith]
      · rw [show 2 * (j + 1) + 1 = ((2 * j + 1) + 1) + 1 by ring]
        simp only [handleClientQueriesFrom, List.get?_cons_succ]
        rw [(ih j (k + 1) hc).2, harith]

theorem isReplyTo_dequeued (i k : Nat) :
    RouterEvent.isReplyTo i (RouterEvent.dequeued k) = false := rfl

theorem handleFrom_countP_reply (cmds : List StateNetworkEndpoint)
    (k i : Nat) :
    (handleClientQueriesFrom k cmds).countP (RouterEvent.isReplyTo i) =
      if k ≤ i ∧ i < k + cmds.length then 1 else 0 := by
  induction cmds generalizing k with
  | nil =>
    simp only [handleClientQueriesFrom, List.countP_nil, List.length_nil,
      Nat.add_zero]
    split_ifs <;> omega
  | cons c rest ih =>
    simp only [handleClientQueriesFrom, List.countP_cons, List.length_cons]
    cases hck : c.kind
    simp only [ih (k + 1), isReplyTo_sendReply, isReplyTo_dequeued,
      beq_iff_eq, Bool.false_eq_true, if_false]
    split_ifs <;> omega

/-- Claim C3: for every command received by the consumer loop, exactly one
reply is sent on that command's reply slot — never zero and never more
than one. -/
theorem C3_exactly_one_reply (cmds : List StateNetworkEndpoint) (i : Nat)
    (hi : i < cmds.length) :
    (handle_client_queries cmds).countP (RouterEvent.isReplyTo i) = 1 := by
  show (handleClientQueriesFrom 0 cmds).countP (RouterEvent.isReplyTo i) = 1
  rw [handleFrom_countP_reply]
  rw [if_pos ⟨Nat.zero_le i, by omega⟩]

/-- Claim C4: FIFO — command `i` enqueued before command `j` has its reply
produced (trace position `2·i + 1`) strictly before command `j`'s handling
starts (its dequeue, trace position `2·j`). -/
theorem C4_fifo_order (cmds : List StateNetworkEndpoint) (i j : Nat)
    (ci cj : StateNetworkEndpoint)
    (hci : cmds.get? i = some ci) (hcj : cmds.get? j = some cj)
    (hij : i < j) :
    2 * i + 1 < 2 * j ∧
    (handle_client_queries cmds).get? (2 * i + 1) =
      some (sendReply i ci (Reply.ok (JsonValue.str "0xmockstatedata"))) ∧
    (handle_client_queries cmds).get? (2 * j) =
      some (RouterEvent.dequeued j) := by
  refine ⟨by omega, ?_, ?_⟩
  · show (handleClientQueriesFrom 0 cmds).get? (2 * i + 1) = _
    rw [(handleFrom_get cmds i 0 ci hci).2]
    simp
  · show (handleClientQueriesFrom 0 cmds).get? (2 * j) = _
    rw [(handleFrom_get cmds j 0 cj hcj).1]
    simp

/-- Claim C6: a command whose reply slot is unfulfillable (receiver
dropped, so the send fails) never aborts the consumer loop: the failed
send is recorded and every later queued command is still dequeued and
receives exactly one reply send. -/
theorem C6_failure_isolated (cmds : List StateNetworkEndpoint) (i j : Nat)
    (ci cj : StateNetworkEndpoint)
    (hci : cmds.get? i = some ci) (hdrop : ci.respDropped = true)
    (hcj : cmds.get? j = some cj) (hij : i < j) :
    (handle_client_queries cmds).get? (2 * i + 1) =
      some (RouterEvent.replyDropped i
        (Reply.ok (JsonValue.str "0xmockstatedata"))) ∧
    (handle_client_queries cmds).get? (2 * j) =
      some (RouterEvent.dequeued j) ∧
    (handle_client_queries cmds).countP (RouterEvent.isReplyTo j) = 1 := by
  obtain ⟨hjlen, -⟩ := List.get?_eq_some.mp hcj
  refine ⟨?_, ?_, ?_⟩
  · show (handleClientQueriesFrom 0 cmds).get? (2 * i + 1) = _
    rw [(handleFrom_get cmds i 0 ci hci).2]
    simp [sendReply, hdrop]
  · show (handleClientQueriesFrom 0 cmds).get? (2 * j) = _
    rw [(handleFrom_get cmds j 0 cj hcj).1]
    simp
  · exact C3_exactly_one_reply cmds j hjlen

/-- Two queued commands, the first with its reply receiver dropped. -/
def cmds0 : List StateNetworkEndpoint :=
  [{ kind := .GetStateNetworkData, respDropped := true },
   { kind := .GetStateNetworkData, respDropped := false }]

/-- Witness for claim C3 on the concrete queue `cmds0`. -/
theorem C3_exactly_one_reply_witness :
    (handle_client_queries cmds0).countP (RouterEvent.isReplyTo 0) = 1 :=
  C3_exactly_one_reply cmds0 0 (by decide)

/-- Witness for claim C4 on the concrete queue `cmds0`. -/
theorem C4_fifo_order_witness :
    2 * 0 + 1 < 2 * 1 ∧
    (handle_client_queries cmds0).get? (2 * 0 + 1) =
      some (sendReply 0 { kind := .GetStateNetworkData, respDropped := true }
        (Reply.ok (JsonValue.str "0xmockstatedata"))) ∧
    (handle_client_queries cmds0).get? (2 * 1) =
      some (RouterEvent.dequeued 1) :=
  C4_fifo_order cmds0 0 1 _ _ rfl rfl (by omega)

/-- Witness for claim C6 on the concrete queue `cmds0`: the first
command's send fails, the second is still served. -/
theorem C6_failure_isolated_witness :
    (handle_client_queries cmds0).get? (2 * 0 + 1) =
      some (RouterEvent.replyDropped 0
        (Reply.ok (JsonValue.str "0xmockstatedata"))) ∧
    (handle_client_queries cmds0).get? (2 * 1) =
      some (RouterEvent.dequeued 1) ∧
    (handle_client_queries cmds0).countP (RouterEvent.isReplyTo 1) = 1 :=
  C6_failure_isolated cmds0 0 1 _ _ rfl rfl rfl (by omega)

/-! ## Peertest CLI driver (`ethportal-peertest/src/main.rs`, `cli.rs`)

The driver parses its config, spawns the protocol, and for each configured
target peer issues three RPCs in a fixed order — `send_ping` with
`U256::from(u64::MAX)`, `send_find_nodes(vec![122; 32])`,
`send_find_content(vec![100; 32])` — `.unwrap()`ing each result (a failed
RPC panics the task and ends the run), then awaits ctrl-c.  Whether a
given RPC returns `Ok` is the environment, the parameter `rpcOk`. -/

/-- `u64::MAX`, the value the driver wraps into a `U256` for the Ping's
data radius. -/
def u64_MAX : Nat := 2 ^ 64 - 1

/-- The maximum 256-bit unsigned value (`max_u256` in the spec's
scenario). -/
def max_u256 : Nat := 2 ^ 256 - 1

/-- An outbound portal-network RPC of the driver: target plus
kind-specific argument (Ping's `U256` data radius, FindNodes' distance
list, FindContent's content key bytes). -/
inductive RpcAction where
  | ping : Enr → Nat → RpcAction
  | findNodes : Enr → List Nat → RpcAction
  | findContent : Enr → List Nat → RpcAction
deriving DecidableEq, Repr

/-- An event of the driver's run: an RPC issued, or the final
`tokio::signal::ctrl_c().await` idle. -/
inductive DriverEvent where
  | rpc : RpcAction → DriverEvent
  | awaitCtrlC : DriverEvent
deriving DecidableEq, Repr

/-- The driver's main loop over the configured target peers: per peer a
Ping, a FindNodes and a FindContent (each issued, then `.unwrap()`ed —
the Boolean result records whether the run panicked); after the loop the
driver idles awaiting ctrl-c. -/
def peertestLoop (rpcOk : RpcAction → Bool) :
    List Enr → List DriverEvent × Bool
  | [] => ([DriverEvent.awaitCtrlC], false)
  | enr :: rest =>
      let a1 := RpcAction.ping enr u64_MAX
      if rpcOk a1 then
        let a2 := RpcAction.findNodes enr (List.replicate 32 122)
        if rpcOk a2 then
          let a3 := RpcAction.findContent enr (List.replicate 32 100)
          if rpcOk a3 then
            let p := peertestLoop rpcOk rest
            (.rpc a1 :: .rpc a2 :: .rpc a3 :: p.1, p.2)
          else ([.rpc a1, .rpc a2, .rpc a3], true)
        else ([.rpc a1, .rpc a2], true)
      else ([.rpc a1], true)

/-- The three RPCs the driver issues against one target, in source
order. -/
def pingBlock (enr : Enr) : List DriverEvent :=
  [.rpc (.ping enr u64_MAX),
   .rpc (.findNodes enr (List.replicate 32 122)),
   .rpc (.findContent enr (List.replicate 32 100))]

/-- The full trace of a run in which every RPC succeeds. -/
def canonTrace (targets : List Enr) : List DriverEvent :=
  targets.flatMap pingBlock ++ [DriverEvent.awaitCtrlC]

/-- Whether an event is a Ping RPC to `e`. -/
def isPingTo (e : Enr) : DriverEvent → Bool
  | .rpc (.ping t _) => t == e
  | _ => false

/-- Whether an event is a FindNodes RPC to `e`. -/
def isFindNodesTo (e : Enr) : DriverEvent → Bool
  | .rpc (.findNodes t _) => t == e
  | _ => false

/-- Whether an event is a FindContent RPC to `e`. -/
def isFindContentTo (e : Enr) : DriverEvent → Bool
  | .rpc (.findContent t _) => t == e
  | _ => false

theorem peertestLoop_all_ok (rpcOk : RpcAction → Bool)
    (targets : List Enr) (hok : ∀ a, rpcOk a = true) :
    peertestLoop rpcOk targets = (canonTrace targets, false) := by
  induction targets with
  | nil => rfl
  | cons enr rest ih =>
    simp only [peertestLoop, hok, if_true, ih, canonTrace, List.flatMap_cons,
      pingBlock]
    simp

theorem canonTrace_get (targets : List Enr) (i : Nat) (e : Enr)
    (he : targets.get? i = some e) :
    (canonTrace targets).get? (3 * i) =
      some (.rpc (.ping e u64_MAX)) ∧
    (canonTrace targets).get? (3 * i + 1) =
      some (.rpc (.findNodes e (List.replicate 32 122))) ∧
    (canonTrace targets).get? (3 * i + 2) =
      some (.rpc (.findContent e (List.replicate 32 100))) := by
  induction targets generalizing i with
  | nil => cases he
  | cons t rest ih =>
    have hcons : canonTrace (t :: rest) =
        .rpc (.ping t u64_MAX) ::
        .rpc (.findNodes t (List.replicate 32 122)) ::
        .rpc (.findContent t (List.replicate 32 100)) ::
        canonTrace rest := by
      simp [canonTrace, pingBlock, List.flatMap_cons]
    cases i with
    | zero =>
      rw [List.get?_cons_zero] at he
      cases he
      rw [hcons]
      exact ⟨rfl, rfl, rfl⟩
    | succ i =>
      rw [List.get?_cons_succ] at he
      rw [hcons]
      refine ⟨?_, ?_, ?_⟩
      · rw [show 3 * (i + 1) = ((3 * i + 1) + 1) + 1 by ring]
        simp only [List.get?_cons_succ]
        exact (ih i he).1
      · rw [show 3 * (i + 1) + 1 = (((3 * i + 1) + 1) + 1) + 1 by ring]
        simp only [List.get?_cons_succ]
        exact (ih i he).2.1
      · rw [show 3 * (i + 1) + 2 = ((((3 * i + 2) + 1) + 1)) + 1 by ring]
        simp only [List.get?_cons_succ]
        exact (ih i he).2.2

theorem canonTrace_get_await (targets : List Enr) :
    (canonTrace targets).get? (3 * targets.length) =
      some DriverEvent.awaitCtrlC := by
  induction targets with
  | nil => rfl
  | cons t rest ih =>
    have hcons : canonTrace (t :: rest) =
        .rpc (.ping t u64_MAX) ::
        .rpc (.findNodes t (List.replicate 32 122)) ::
        .rpc (.findContent t (List.replicate 32 100)) ::
        canonTrace rest := by
      simp [canonTrace, pingBlock, List.flatMap_cons]
    rw [hcons, List.length_cons,
      show 3 * (rest.length + 1) = ((3 * rest.length + 1) + 1) + 1 by ring]
    simp only [List.get?_cons_succ]
    exact ih

theorem countP_bind_zero (p : DriverEvent → Bool)
    (block : Enr → List DriverEvent) (e : Enr) (ts : List Enr)
    (hblock : ∀ t, (block t).countP p = if t = e then 1 else 0)
    (hnot : e ∉ ts) :
    (ts.flatMap block).countP p = 0 := by
  induction ts with
  | nil => rfl
  | cons t rest ih =>
    rw [List.flatMap_cons, List.countP_append, hblock t,
      ih (fun hr => hnot (List.mem_cons_of_mem t hr)),
      if_neg (fun (ht : t = e) => hnot (ht ▸ List.mem_cons_self t rest))]

theorem countP_bind_one (p : DriverEvent → Bool)
    (block : Enr → List DriverEvent) (e : Enr) (ts : List Enr)
    (hblock : ∀ t, (block t).countP p = if t = e then 1 else 0)
    (hnd : ts.Nodup) (hmem : e ∈ ts) :
    (ts.flatMap block).countP p = 1 := by
  induction ts with
  | nil => cases hmem
  | cons t rest ih =>
    rw [List.flatMap_cons, List.countP_append, hblock t]
    rcases List.mem_cons.mp hmem with rfl | hr
    · rw [if_pos rfl,
        countP_bind_zero p block e rest hblock (List.Nodup.not_mem hnd)]
    · have hne : t ≠ e := fun ht => (List.Nodup.not_mem hnd) (ht ▸ hr)
      rw [if_neg hne, ih (List.Nodup.of_cons hnd) hr]

theorem peertestLoop_ping_radius (rpcOk : RpcAction → Bool)
    (targets : List Enr) :
    ∀ e r, DriverEvent.rpc (RpcAction.ping e r) ∈
        (peertestLoop rpcOk targets).1 → r = u64_MAX := by
  induction targets with
  | nil =>
    intro e r hmem
    rcases List.mem_cons.mp hmem with heq | hmem
    · exact absurd heq (by simp)
    · exact absurd hmem (List.not_mem_nil _)
  | cons t rest ih =>
    intro e r hmem
    simp only [peertestLoop] at hmem
    split at hmem
    · split at hmem
      · split at hmem
        · rcases List.mem_cons.mp hmem with heq | hmem
          · injection heq with h
            injection h with h1 h2
          rcases List.mem_cons.mp hmem with heq | hmem
          · injection heq with h
            exact RpcAction.noConfusion h
          rcases List.mem_cons.mp hmem with heq | hmem
          · injection heq with h
            exact RpcAction.noConfusion h
          exact ih e r hmem
        · rcases List.mem_cons.mp hmem with heq | hmem
          · injection heq with h
            injection h with h1 h2
          rcases List.mem_cons.mp hmem with heq | hmem
          · injection heq with h
            exact RpcAction.noConfusion h
          rcases List.mem_cons.mp hmem with heq | hmem
          · injection heq with h
            exact RpcAction.noConfusion h
          exact absurd hmem (List.not_mem_nil _)
      · rcases List.mem_cons.mp hmem with heq | hmem
        · injection heq with h
          injection h with h1 h2
        rcases List.mem_cons.mp hmem with heq | hmem
        · injection heq with h
          exact RpcAction.noConfusion h
        exact absurd hmem (List.not_mem_nil _)
    · rcases List.mem_cons.mp hmem with heq | hmem
      · injection heq with h
        injection h with h1 h2
      exact absurd hmem (List.not_mem_nil _)

/-- Claim C2 counterexample: with one concrete target and every RPC
succeeding, the driver's whole trace is explicit — its only Ping carries
data_radius `U256::from(u64::MAX)` = 2^64 − 1 — and that value is not
`max_u256` = 2^256 − 1, so the claim as stated is false. -/
theorem C2_counterexample :
    (peertestLoop (fun _ => true) [⟨5⟩]).1 =
      [DriverEvent.rpc (RpcAction.ping ⟨5⟩ u64_MAX),
       DriverEvent.rpc (RpcAction.findNodes ⟨5⟩ (List.replicate 32 122)),
       DriverEvent.rpc (RpcAction.findContent ⟨5⟩ (List.replicate 32 100)),
       DriverEvent.awaitCtrlC] ∧
    u64_MAX ≠ max_u256 :=
  ⟨rfl, by decide⟩

/-- Claim C2 (amended): every Ping the peertest driver sends carries
data_radius `U256::from(u64::MAX)` = 2^64 − 1 (not the maximum 256-bit
value), and when every RPC succeeds each configured target peer receives
exactly such a Ping. -/
theorem C2_ping_radius_amended (rpcOk : RpcAction → Bool)
    (targets : List Enr) :
    (∀ e r, DriverEvent.rpc (RpcAction.ping e r) ∈
        (peertestLoop rpcOk targets).1 → r = u64_MAX) ∧
    ((∀ a, rpcOk a = true) → ∀ e ∈ targets,
      DriverEvent.rpc (RpcAction.ping e u64_MAX) ∈
        (peertestLoop rpcOk targets).1) := by
  constructor
  · exact peertestLoop_ping_radius rpcOk targets
  · intro hok e he
    rw [peertestLoop_all_ok rpcOk targets hok]
    show _ ∈ canonTrace targets
    apply List.mem_append_left
    exact List.mem_flatMap.mpr ⟨e, he, by simp [pingBlock]⟩

/-- Witness for the amended claim C2 at one concrete target with all RPCs
succeeding. -/
theorem C2_ping_radius_amended_witness :
    u64_MAX = u64_MAX ∧
    DriverEvent.rpc (RpcAction.ping ⟨5⟩ u64_MAX) ∈
      (peertestLoop (fun _ => true) [(⟨5⟩ : Enr)]).1 :=
  ⟨(C2_ping_radius_amended (fun _ => true) [⟨5⟩]).1 ⟨5⟩ u64_MAX (by decide),
   (C2_ping_radius_amended (fun _ => true) [⟨5⟩]).2 (fun _ => rfl) ⟨5⟩
     (by simp)⟩

/-- Claim C7: when every RPC succeeds, the driver performs against each
configured target peer exactly one Ping, exactly one FindNodes and
exactly one FindContent (counted over the whole trace), placed
consecutively in that order at the peer's position in the config, then
idles awaiting ctrl-c, and the run does not panic. -/
theorem C7_one_of_each_then_idle (rpcOk : RpcAction → Bool)
    (targets : List Enr) (hok : ∀ a, rpcOk a = true)
    (hnd : targets.Nodup) (i : Nat) (e : Enr)
    (he : targets.get? i = some e) :
    ((peertestLoop rpcOk targets).1.countP (isPingTo e) = 1 ∧
     (peertestLoop rpcOk targets).1.countP (isFindNodesTo e) = 1 ∧
     (peertestLoop rpcOk targets).1.countP (isFindContentTo e) = 1) ∧
    ((peertestLoop rpcOk targets).1.get? (3 * i) =
        some (.rpc (.ping e u64_MAX)) ∧
     (peertestLoop rpcOk targets).1.get? (3 * i + 1) =
        some (.rpc (.findNodes e (List.replicate 32 122))) ∧
     (peertestLoop rpcOk targets).1.get? (3 * i + 2) =
        some (.rpc (.findContent e (List.replicate 32 100)))) ∧
    (peertestLoop rpcOk targets).1.get? (3 * targets.length) =
      some DriverEvent.awaitCtrlC ∧
    (peertestLoop rpcOk targets).2 = false := by
  have hmem : e ∈ targets := by
    obtain ⟨hlt, hget⟩ := List.get?_eq_some.mp he
    exact hget ▸ List.get_mem targets i hlt
  rw [peertestLoop_all_ok rpcOk targets hok]
  refine ⟨⟨?_, ?_, ?_⟩, canonTrace_get targets i e he,
    canonTrace_get_await targets, rfl⟩
  · show (canonTrace targets).countP (isPingTo e) = 1
    unfold canonTrace
    rw [List.countP_append,
      countP_bind_one (isPingTo e) pingBlock e targets
        (fun t => by
          by_cases h : t = e <;> simp [pingBlock, isPingTo, h]) hnd hmem]
    simp [isPingTo]
  · show (canonTrace targets).countP (isFindNodesTo e) = 1
    unfold canonTrace
    rw [List.countP_append,
      countP_bind_one (isFindNodesTo e) pingBlock e targets
        (fun t => by
          by_cases h : t = e <;> simp [pingBlock, isFindNodesTo, h]) hnd
        hmem]
    simp [isFindNodesTo]
  · show (canonTrace targets).countP (isFindContentTo e) = 1
    unfold canonTrace
    rw [List.countP_append,
      countP_bind_one (isFindContentTo e) pingBlock e targets
        (fun t => by
          by_cases h : t = e <;> simp [pingBlock, isFindContentTo, h]) hnd
        hmem]
    simp [isFindContentTo]

/-- Witness for claim C7 at one concrete target with all RPCs
succeeding. -/
theorem C7_one_of_each_then_idle_witness :
    ((peertestLoop (fun _ => true) [(⟨5⟩ : Enr)]).1.countP (isPingTo ⟨5⟩) =
        1 ∧
     (peertestLoop (fun _ => true) [(⟨5⟩ : Enr)]).1.countP
        (isFindNodesTo ⟨5⟩) = 1 ∧
     (peertestLoop (fun _ => true) [(⟨5⟩ : Enr)]).1.countP
        (isFindContentTo ⟨5⟩) = 1) ∧
    ((peertestLoop (fun _ => true) [(⟨5⟩ : Enr)]).1.get? (3 * 0) =
        some (.rpc (.ping ⟨5⟩ u64_MAX)) ∧
     (peertestLoop (fun _ => true) [(⟨5⟩ : Enr)]).1.get? (3 * 0 + 1) =
        some (.rpc (.findNodes ⟨5⟩ (List.replicate 32 122))) ∧
     (peertestLoop (fun _ => true) [(⟨5⟩ : Enr)]).1.get? (3 * 0 + 2) =
        some (.rpc (.findContent ⟨5⟩ (List.replicate 32 100)))) ∧
    (peertestLoop (fun _ => true) [(⟨5⟩ : Enr)]).1.get?
      (3 * ([(⟨5⟩ : Enr)].length)) = some DriverEvent.awaitCtrlC ∧
    (peertestLoop (fun _ => true) [(⟨5⟩ : Enr)]).2 = false :=
  C7_one_of_each_then_idle (fun _ => true) [⟨5⟩] (fun _ => rfl) (by simp)
    0 ⟨5⟩ rfl

/-! ## Startup peer-address parsing (`trin-state/src/lib.rs` `main`)

`main` builds its bootnode list with
`trin_config.bootnodes.iter().map(|nodestr| nodestr.parse().unwrap()).collect()`
(the peertest driver parses its `target_nodes` the same way).  `parse` is
the external ENR textual decoder; the `.unwrap()` panics on an unparsable
string, aborting startup. -/

/-- The parse-and-collect of the bootnode (or target-node) strings: the
first unparsable string panics the process; otherwise the full parsed
list is produced. -/
def parseBootnodes (parse : String → Option Enr) :
    List String → RResult (List Enr) String
  | [] => .ok []
  | s :: rest =>
      match parse s with
      | none => .panic
      | some e =>
          match parseBootnodes parse rest with
          | .ok es => .ok (e :: es)
          | .err msg => .err msg
          | .panic => .panic

/-- Claim C8: a configured peer-address string that cannot be parsed as an
ENR is fatal — the collect panics (the process aborts, no partial peer
list is ever produced); startup proceeds past parsing exactly when every
supplied string parses. -/
theorem C8_unparsable_peer_fatal (parse : String → Option Enr)
    (strs : List String) :
    ((∃ s ∈ strs, parse s = none) →
      parseBootnodes parse strs = RResult.panic) ∧
    ((∀ s ∈ strs, (parse s).isSome = true) →
      ∃ es, parseBootnodes parse strs = RResult.ok es) := by
  induction strs with
  | nil =>
    constructor
    · intro h; simp at h
    · intro _; exact ⟨[], rfl⟩
  | cons s rest ih =>
    constructor
    · rintro ⟨x, hx, hxn⟩
      rcases List.mem_cons.mp hx with rfl | hx'
      · simp [parseBootnodes, hxn]
      · cases hs : parse s with
        | none => simp [parseBootnodes, hs]
        | some e =>
          have hrest := ih.1 ⟨x, hx', hxn⟩
          simp [parseBootnodes, hs, hrest]
    · intro hall
      obtain ⟨e, he⟩ := Option.isSome_iff_exists.mp (hall s (by simp))
      obtain ⟨es, hes⟩ := ih.2 (fun x hx => hall x (by simp [hx]))
      exact ⟨e :: es, by simp [parseBootnodes, he, hes]⟩

/-- A textual ENR decoder accepting exactly one string. -/
def parse0 (s : String) : Option Enr :=
  if s = "enr:good" then some ⟨1⟩ else none

/-- Witness for claim C8: one bad peer-address string among the supplied
ones panics the whole parse-and-collect. -/
theorem C8_unparsable_peer_fatal_witness :
    parseBootnodes parse0 ["enr:good", "enr:bad"] = RResult.panic :=
  (C8_unparsable_peer_fatal parse0 ["enr:good", "enr:bad"]).1
    ⟨"enr:bad", by simp, by decide⟩

/-- A concrete post-London header exercising every field. -/
def hdr0 : Header :=
  { parent_hash := 1, uncles_hash := 2, author := 3, state_root := 4,
    transactions_root := 5, receipts_root := 6, log_bloom := 7,
    difficulty := 8, number := 12965000, gas_limit := 9, gas_used := 10,
    timestamp := 11, extra_data := [12, 13], mix_hash := some 14,
    nonce := some 15, base_fee_per_gas := some 16 }

/-- Witness for claim C9 at the concrete header `hdr0`. -/
theorem C9_header_rlp_roundtrip_witness :
    Header.decode (Header.rlp_append hdr0) = some hdr0 :=
  C9_header_rlp_roundtrip hdr0 (by decide) (by decide) (by decide)
    (by decide) (by decide) (by decide) (by decide) (by decide) (by decide)
    (by decide) (by decide) (by decide) (by decide) (by decide) (by decide)
    (by decide) (by decide) (by decide)

end Trin
